import Mathlib

/-!
# Verification of the midway `WebRouterCollector`

Shallow embedding of `src/packages/core/src/common/webRouterCollector.ts`:
the route-table builder and priority resolver (route entry collection,
duplicate detection, intra-group sorting, group prioritisation, and the
lazily-cached facade).

Modelling conventions:
* JavaScript strings are Lean `String`s (all patterns of interest are ASCII,
  where JS UTF-16 `length` agrees with Lean's codepoint `String.length`).
* A route `url` is modelled in its string form (`url.toString()`); precompiled
  `RegExp` patterns are outside the model, so `isRegExp(item.url)` is `false`
  and the weight array is split on `'/'`.
* JS truthiness of a string is "not the empty string"; an absent/undefined
  optional string is modelled as `""` or as `Option.none` where the source
  distinguishes `?? `-defaulting from falsiness.
* `Array.prototype.sort` (ES2019+) is modelled as a stable comparison sort
  (insertion sort driven by the numeric comparator, inserting each element
  after all earlier elements the comparator does not strictly order after it).
* `Map` (insertion-ordered) is modelled as an association list whose `set` on
  an existing key updates in place and otherwise appends at the end.
* Opaque pass-through metadata (request/response binding metadata, the
  serverless `functionMeta` enrichment, which `analyze` never enables, and
  middleware contents) is dropped or carried as opaque `String` references.
-/

/-- JS `String.prototype.split` with a single-character separator, on
character lists. `""` splits to `[[]]`, matching JS `''.split('/') = ['']`. -/
def splitOnChar (sep : Char) : List Char → List (List Char)
  | [] => [[]]
  | c :: rest =>
    match splitOnChar sep rest with
    | [] => if c = sep then [[], []] else [[c]]
    | g :: gs => if c = sep then [] :: g :: gs else (c :: g) :: gs

/-- Split a string on a separator character, JS-style. -/
def splitStr (sep : Char) (s : String) : List String :=
  (splitOnChar sep s.toList).map String.mk

/-- JS `String.prototype.includes` with a single-character needle. -/
def containsChar (s : String) (c : Char) : Bool :=
  s.toList.contains c

/-- A character matched by the JS regex `.` (anything but a line terminator). -/
def isRegexDotChar (c : Char) : Bool :=
  !(c = '\n' || c = '\r' || c.val = 0x2028 || c.val = 0x2029)

/-- JS `\w` word characters `[A-Za-z0-9_]`. -/
def isWordChar (c : Char) : Bool :=
  c.isAlpha || c.isDigit || c = '_'

/-- Core of `str.replace(/:.+$/, '')`: drop everything from the first `:`
that is followed by at least one character, provided the tail matches `.+$`
(no line terminators); otherwise leave the string unchanged. -/
def replaceColonToEndAux : List Char → List Char
  | [] => []
  | c :: rest =>
    if c = ':' && !rest.isEmpty && rest.all isRegexDotChar then []
    else c :: replaceColonToEndAux rest

/-- JS `str.replace(/:.+$/, '')` (first — hence leftmost — match only). -/
def replaceColonToEnd (s : String) : String :=
  String.mk (replaceColonToEndAux s.toList)

/-- JS `str.replace(/\**$/, '')`: strip the trailing run of `*` characters
(the leftmost match of zero-or-more stars anchored at the end). -/
def dropTrailingStars (s : String) : String :=
  String.mk ((s.toList.reverse.dropWhile (· = '*')).reverse)

/-- Core of `str.replace(/:\w+/, '123')`: replace the leftmost `:` followed
by a maximal nonempty run of word characters with `123`. -/
def replaceParamOnceAux : List Char → List Char
  | [] => []
  | c :: rest =>
    if c = ':' && !(rest.takeWhile isWordChar).isEmpty then
      '1' :: '2' :: '3' :: rest.dropWhile isWordChar
    else c :: replaceParamOnceAux rest

/-- JS `str.replace(/:\w+/, '123')` (first match only). -/
def replaceParamOnce (s : String) : String :=
  String.mk (replaceParamOnceAux s.toList)

/-- `RouterInfo` (webRouterCollector.ts, lines 28–102), restricted to the
fields this subsystem reads or constructs.  The opaque pass-through fields
(`requestMetadata`, `responseMetadata`, `description`, `summary` and the
serverless `function*` enrichment, which `analyze` never enables) are
dropped; middleware chains are opaque reference lists. -/
structure RouterInfo where
  id : Nat
  prefixPath : String
  routerName : String
  url : String
  requestMethod : String
  method : String
  handlerName : String
  funcHandlerName : String
  controllerId : String
  middleware : List String
  controllerMiddleware : List String
deriving DecidableEq, Repr

/-- A `RouterInfo` spread with the sort keys computed by `sortRouter`'s `map`
step (`_pureRouter`, `_level`, `_paramString`, `_category`, `_weight`). -/
structure SortedRouterInfo extends RouterInfo where
  pureRouter : String
  level : Nat
  paramString : String
  category : Nat
  weight : Nat
deriving DecidableEq, Repr

/-- The `map` step of `sortRouter` (lines 416–453): compute the weight,
category, level, param string and pure router of one entry. -/
def decorateRouter (item : RouterInfo) : SortedRouterInfo :=
  let urlString := item.url
  let weightArr := splitStr '/' urlString
  let weight := weightArr.foldl
    (fun w fragment =>
      if fragment = "" || containsChar fragment ':' || containsChar fragment '*' then
        w + 0
      else w + 1) 0
  let paramString := if containsChar urlString ':' then replaceColonToEnd urlString else ""
  let category : Nat := 2
  let category := if paramString ≠ "" then 1 else category
  let category := if containsChar urlString '*' then 0 else category
  { item with
    pureRouter := replaceParamOnce (dropTrailingStars urlString)
    level := (splitStr '/' urlString).length - 1
    paramString := paramString
    category := category
    weight := weight }

/-- The comparator passed to `.sort` in `sortRouter` (lines 454–475).
Negative means `handlerA` is ordered before `handlerB`. -/
def routerCmp (handlerA handlerB : SortedRouterInfo) : Int :=
  if handlerA.category ≠ handlerB.category then
    (handlerB.category : Int) - (handlerA.category : Int)
  else if handlerA.weight ≠ handlerB.weight then
    (handlerB.weight : Int) - (handlerA.weight : Int)
  else if handlerA.level = handlerB.level then
    if handlerB.pureRouter = handlerA.pureRouter then
      (handlerA.url.length : Int) - (handlerB.url.length : Int)
    else
      (handlerB.pureRouter.length : Int) - (handlerA.pureRouter.length : Int)
  else
    (handlerB.level : Int) - (handlerA.level : Int)

/-- The same comparator over its raw components (category, weight, level,
pure router, raw url length); used to factor the order-theoretic lemmas. -/
def cmpCore (ca wa la : Nat) (pa : String) (ra : Nat)
    (cb wb lb : Nat) (pb : String) (rb : Nat) : Int :=
  if ca ≠ cb then (cb : Int) - (ca : Int)
  else if wa ≠ wb then (wb : Int) - (wa : Int)
  else if la = lb then
    if pb = pa then (ra : Int) - (rb : Int)
    else (pb.length : Int) - (pa.length : Int)
  else (lb : Int) - (la : Int)

/-- Stable insertion into a list already ordered by the comparator: the new
element is placed before the first element it strictly precedes. -/
def insertCmp {α : Type} (cmp : α → α → Int) (e : α) : List α → List α
  | [] => [e]
  | x :: xs => if cmp e x < 0 then e :: x :: xs else x :: insertCmp cmp e xs

/-- Stable comparison sort (model of ES2019+ `Array.prototype.sort`):
elements are inserted left to right, each after the ones it ties with. -/
def sortByCmp {α : Type} (cmp : α → α → Int) (l : List α) : List α :=
  l.foldl (fun acc e => insertCmp cmp e acc) []

/-- `sortRouter` (lines 409–476): decorate every entry with its sort keys,
then sort by the comparator. -/
def sortRouter (urlMatchList : List RouterInfo) : List SortedRouterInfo :=
  sortByCmp routerCmp (urlMatchList.map decorateRouter)

/-- Modelled from the spec: the payload of `MidwayDuplicateRouteError`
(declared in `../error`, not under `src/`) — the error "carries: the
requested method+pattern, the handler reference already registered, and the
handler reference of the rejected duplicate". -/
structure DuplicateRouteErrorInfo where
  routerUrl : String
  existHandler : String
  duplicatedHandler : String
deriving DecidableEq, Repr

/-- The filter predicate inside `checkDuplicateAndPush` (lines 508–515):
an existing `item` matches when the incoming entry has a truthy (nonempty)
url and request method equal (`===`) to the existing entry's. -/
def dupMatched (prefixList : List RouterInfo) (routerInfo : RouterInfo) : List RouterInfo :=
  prefixList.filter fun item =>
    routerInfo.url ≠ "" && routerInfo.requestMethod ≠ "" &&
      item.url = routerInfo.url && item.requestMethod = routerInfo.requestMethod

/-- `checkDuplicateAndPush` (lines 506–524) on one group's entry list:
raise a duplicate-route error when some existing entry matches, otherwise
append the incoming entry. -/
def checkDuplicateAndPush (prefixList : List RouterInfo) (routerInfo : RouterInfo) :
    Except DuplicateRouteErrorInfo (List RouterInfo) :=
  match dupMatched prefixList routerInfo with
  | [] => Except.ok (prefixList ++ [routerInfo])
  | m :: _ =>
    Except.error
      ⟨routerInfo.requestMethod ++ " " ++ routerInfo.url, m.handlerName, routerInfo.handlerName⟩

/-- `RouterPriority` (lines 104–114): one group-priority record.  The opaque
`routerOptions` and `routerModule` fields are dropped. -/
structure RouterPriority where
  prefixPath : String
  priority : Int
  middleware : List String
  controllerId : String
deriving DecidableEq, Repr

/-- `RouterCollectorOptions` (lines 116–119); `globalPfx = ""` models an
undefined `globalPrefix`. -/
structure RouterCollectorOptions where
  includeFunctionRouter : Bool
  globalPfx : String
deriving DecidableEq, Repr

/-- The two fatal collection errors: `MidwayCommonError` (invalid prefix) and
`MidwayDuplicateRouteError`. -/
inductive CollectorError where
  | commonError (msg : String)
  | duplicateRouteError (info : DuplicateRouteErrorInfo)
deriving DecidableEq, Repr

/-- `this.routes`: a JS `Map<string, RouterInfo[]>` as an insertion-ordered
association list. -/
abbrev RoutesMap := List (String × List RouterInfo)

/-- JS `Map.prototype.has`. -/
def mapHas (m : RoutesMap) (k : String) : Bool :=
  m.any fun p => p.1 = k

/-- JS `Map.prototype.get`. -/
def mapGet (m : RoutesMap) (k : String) : Option (List RouterInfo) :=
  (m.find? fun p => p.1 = k).map Prod.snd

/-- JS `Map.prototype.set`: update an existing key in place, otherwise append
the new key at the end (preserving insertion order). -/
def mapSet (m : RoutesMap) (k : String) (v : List RouterInfo) : RoutesMap :=
  if mapHas m k then m.map fun p => if p.1 = k then (k, v) else p
  else m ++ [(k, v)]

/-- JS `Map.prototype.delete`. -/
def mapDelete (m : RoutesMap) (k : String) : RoutesMap :=
  m.filter fun p => p.1 ≠ k

/-- The mutable collection state of a `WebRouterCollector` instance:
`this.routes` and `this.routesPriority`. -/
structure CollectorState where
  routes : RoutesMap
  routesPriority : List RouterPriority
deriving DecidableEq, Repr

/-- The state both fields start from (`new Map()`, `[]`). -/
def initialCollectorState : CollectorState := ⟨[], []⟩

/-- Modelled from the spec: `joinURLPath` (imported from `../util`, which is
not under `src/`) resolves an "effective mount prefix by joining a global
prefix with the declaration's own prefix" — modelled as concatenating the
slash-separated segments of both arguments into a single root-anchored path. -/
def joinURLPath (a b : String) : String :=
  let segs := (splitStr '/' a ++ splitStr '/' b).filter (· ≠ "")
  "/" ++ String.intercalate "/" segs

/-- One member route declaration (`RouterOption` metadata under
`WEB_ROUTER_KEY`), as consumed by `collectRoute`'s loop (lines 242–285). -/
structure WebRouterDecl where
  path : String
  requestMethod : String
  method : String
  routerName : String
  ignoreGlobalPfx : Bool
  middleware : List String
deriving DecidableEq, Repr

/-- One controller module as seen through the metadata getters used by
`collectRoute` (lines 180–198): provider name/uuid, `ControllerOption`
prefix (`""` models a falsy/undefined prefix), controller middleware, the
`ignoreGlobalPrefix` router option, and the member route declarations
(`[]` models absent `WEB_ROUTER_KEY` metadata). -/
structure ControllerModule where
  controllerId : String
  id : Nat
  ctrlPfx : String
  routerMiddleware : List String
  ignoreGlobalPfxOpt : Bool
  routes : List WebRouterDecl
deriving DecidableEq, Repr

/-- One `@ServerlessTrigger` metadata record, as read by
`collectFunctionRoute` (lines 313–406): `metadataPath = ""` models a falsy
`metadata.path`; `metadataMethod = none` models an absent `metadata.method`
(defaulted to `"get"` by `??`). -/
structure FuncTrigger where
  methodName : String
  metadataPath : String
  metadataMethod : Option String
  metadataMiddleware : List String
deriving DecidableEq, Repr

/-- One function module (metadata under `FUNC_KEY`). -/
structure FuncModule where
  controllerId : String
  id : Nat
  triggers : List FuncTrigger
deriving DecidableEq, Repr

/-- The controller prefix fallback `controllerOption.prefix || '/'`
(also the `ignorePrefix`, line 198). -/
def ctrlIgnorePfx (m : ControllerModule) : String :=
  if m.ctrlPfx = "" then "/" else m.ctrlPfx

/-- The resolved mount prefix of a controller (lines 194–202): the global
prefix joined with the controller's own prefix, unless the controller sets
`ignoreGlobalPrefix`, in which case its own prefix alone. -/
def ctrlResolvedPfx (opts : RouterCollectorOptions) (m : ControllerModule) : String :=
  if m.ignoreGlobalPfxOpt then ctrlIgnorePfx m
  else joinURLPath opts.globalPfx (ctrlIgnorePfx m)

/-- `checkDuplicateAndPush` as it acts on `this.routes` (the source reads
`this.routes.get(prefix)` and pushes into it).  The `none` branch is
unreachable from `collectRoute`/`collectFunctionRoute`, which only submit
prefixes they have already `set`; it models the TS runtime failure on an
absent key. -/
def checkDuplicateAndPushState (st : CollectorState) (pfx : String) (routerInfo : RouterInfo) :
    CollectorState × Option CollectorError :=
  match mapGet st.routes pfx with
  | none => (st, some (CollectorError.commonError "missing route group"))
  | some prefixList =>
    match checkDuplicateAndPush prefixList routerInfo with
    | Except.error e => (st, some (CollectorError.duplicateRouteError e))
    | Except.ok newList => ({ st with routes := mapSet st.routes pfx newList }, none)

/-- Lazy group creation (lines 211–221 and 224–234): the first time a
prefix is seen, create its empty entry list and record its group-priority
entry.  `priorityHint` is the local `priority` variable of `collectRoute`,
which is declared but never assigned, hence always `none`. -/
def ensureGroup (priorityHint : Option Int) (pfx : String) (middleware : List String)
    (controllerId : String) (st : CollectorState) : CollectorState :=
  if mapHas st.routes pfx then st
  else
    { routes := mapSet st.routes pfx []
      routesPriority := st.routesPriority ++
        [⟨pfx, if pfx = "/" ∧ priorityHint = none then -999 else 0, middleware, controllerId⟩] }

/-- The body of `collectRoute`'s member loop (lines 242–285, with
`functionMeta = false`): build a `RouterInfo` for one member declaration and
submit it through the duplicate guard; a previously thrown error skips the
remaining iterations. -/
def collectRouteStep (id : Nat) (controllerId : String) (middleware : List String)
    (ignorePfx pfx : String) (acc : CollectorState × Option CollectorError)
    (webRouter : WebRouterDecl) : CollectorState × Option CollectorError :=
  match acc with
  | (st, some e) => (st, some e)
  | (st, none) =>
    let data : RouterInfo :=
      { id := id
        prefixPath := if webRouter.ignoreGlobalPfx then ignorePfx else pfx
        routerName := webRouter.routerName
        url := webRouter.path
        requestMethod := webRouter.requestMethod
        method := webRouter.method
        handlerName := controllerId ++ "." ++ webRouter.method
        funcHandlerName := controllerId ++ "." ++ webRouter.method
        controllerId := controllerId
        middleware := webRouter.middleware
        controllerMiddleware := middleware }
    checkDuplicateAndPushState st data.prefixPath data

/-- `collectRoute` (lines 179–287) with `functionMeta = false` (the only way
`analyze` calls it; the `functionMeta` branch only attaches extra serverless
metadata).  Returns the state as mutated up to the point of a throw, plus
the error, mirroring that a JS exception leaves prior mutations in place. -/
def collectRoute (opts : RouterCollectorOptions) (st : CollectorState) (m : ControllerModule) :
    CollectorState × Option CollectorError :=
  let controllerId := m.controllerId
  let id := m.id
  let priority : Option Int := none
  let middleware := m.routerMiddleware
  let ignorePfx := ctrlIgnorePfx m
  let pfx := ctrlResolvedPfx opts m
  if containsChar pfx '*' then
    (st, some (CollectorError.commonError
      ("Router prefix " ++ pfx ++ " can't set string with *")))
  else
    let st := ensureGroup priority pfx middleware controllerId st
    let st := ensureGroup priority ignorePfx middleware controllerId st
    m.routes.foldl (collectRouteStep id controllerId middleware ignorePfx pfx) (st, none)

/-- The body of `collectFunctionRoute`'s trigger loop (lines 313–406, with
`functionMeta = false`): an HTTP-gateway trigger (truthy `metadata.path`)
contributes a plain entry under the fixed root prefix; any other trigger
contributes nothing. -/
def collectFunctionRouteStep (id : Nat) (controllerId : String)
    (acc : CollectorState × Option CollectorError) (webRouter : FuncTrigger) :
    CollectorState × Option CollectorError :=
  match acc with
  | (st, some e) => (st, some e)
  | (st, none) =>
    if webRouter.metadataPath ≠ "" then
      let data : RouterInfo :=
        { id := id
          prefixPath := "/"
          routerName := ""
          url := webRouter.metadataPath
          requestMethod := webRouter.metadataMethod.getD "get"
          method := webRouter.methodName
          handlerName := controllerId ++ "." ++ webRouter.methodName
          funcHandlerName := controllerId ++ "." ++ webRouter.methodName
          controllerId := controllerId
          middleware := webRouter.metadataMiddleware
          controllerMiddleware := [] }
      checkDuplicateAndPushState st "/" data
    else (st, none)

/-- `collectFunctionRoute` (lines 289–407) with `functionMeta = false` (the
only way `analyze` calls it). -/
def collectFunctionRoute (st : CollectorState) (m : FuncModule) :
    CollectorState × Option CollectorError :=
  let controllerId := m.controllerId
  let id := m.id
  let pfx := "/"
  let st :=
    if mapHas st.routes pfx then st
    else
      { routes := mapSet st.routes pfx []
        routesPriority := st.routesPriority ++ [⟨pfx, -999, [], controllerId⟩] }
  m.triggers.foldl (collectFunctionRouteStep id controllerId) (st, none)

/-- One step of the post-pass cleanup (lines 157–165): keep a priority item
whose group is nonempty; otherwise drop it and delete its group. -/
def cleanupStep (acc : List RouterPriority × RoutesMap) (item : RouterPriority) :
    List RouterPriority × RoutesMap :=
  let prefixList := (mapGet acc.2 item.prefixPath).getD []
  if prefixList.length > 0 then (acc.1 ++ [item], acc.2)
  else (acc.1, mapDelete acc.2 item.prefixPath)

/-- The group-priority comparator (lines 174–176): descending prefix string
length. -/
def prefixLenCmp (routeA routeB : RouterPriority) : Int :=
  (routeB.prefixPath.length : Int) - (routeA.prefixPath.length : Int)

/-- One step of iterating controller modules in `analyze`; a thrown error
aborts the remaining iterations. -/
def collectStep (opts : RouterCollectorOptions) (acc : CollectorState × Option CollectorError)
    (m : ControllerModule) : CollectorState × Option CollectorError :=
  match acc with
  | (st, some e) => (st, some e)
  | (st, none) => collectRoute opts st m

/-- One step of iterating function modules in `analyze`. -/
def collectFnStep (acc : CollectorState × Option CollectorError) (m : FuncModule) :
    CollectorState × Option CollectorError :=
  match acc with
  | (st, some e) => (st, some e)
  | (st, none) => collectFunctionRoute st m

/-- The collection phase of `analyze` (lines 143–154): iterate the
controller modules, then — when `includeFunctionRouter` is set — the
function modules. -/
def collectPhase (opts : RouterCollectorOptions) (controllerModules : List ControllerModule)
    (fnModules : List FuncModule) (st0 : CollectorState) :
    CollectorState × Option CollectorError :=
  let acc := controllerModules.foldl (collectStep opts) (st0, none)
  if opts.includeFunctionRouter then fnModules.foldl collectFnStep acc else acc

/-- `analyze` (lines 133–177) applied to externally discovered declaration
lists (module discovery through the IoC container is the out-of-scope
collaborator): collect all controller routes, optionally all function
routes, then filter out empty groups, sort every group, and sort the
group-priority list.  On a throw the cleanup and sorts never run and the
partially mutated state is kept. -/
def analyzeRun (opts : RouterCollectorOptions) (controllerModules : List ControllerModule)
    (fnModules : List FuncModule) (st0 : CollectorState) :
    CollectorState × Option CollectorError :=
  match collectPhase opts controllerModules fnModules st0 with
  | (st, some e) => (st, some e)
  | (st, none) =>
    let cleaned := st.routesPriority.foldl cleanupStep ([], st.routes)
    let newRoutes := cleaned.2.map fun kv =>
      (kv.1, (sortRouter kv.2).map SortedRouterInfo.toRouterInfo)
    let newPriority := sortByCmp prefixLenCmp cleaned.1
    (⟨newRoutes, newPriority⟩, none)

/-- A `WebRouterCollector` instance (lines 121–131): its options, the fixed
external declaration source it reads (standing for the decorator modules
`listModule` returns), and the mutable cached fields. -/
structure WebRouterCollector where
  options : RouterCollectorOptions
  controllerModules : List ControllerModule
  fnModules : List FuncModule
  isReady : Bool
  routes : RoutesMap
  routesPriority : List RouterPriority
deriving DecidableEq, Repr

/-- A freshly constructed collector: `isReady = false`, empty state. -/
def newWebRouterCollector (opts : RouterCollectorOptions) (ctrls : List ControllerModule)
    (fns : List FuncModule) : WebRouterCollector :=
  ⟨opts, ctrls, fns, false, [], []⟩

/-- The shared lazy-initialisation step of the three read operations:
run `analyze` if not ready; on success set `isReady`; on a throw keep the
partially mutated state, leave `isReady` unset, and surface the error. -/
def ensureReady (c : WebRouterCollector) : WebRouterCollector × Option CollectorError :=
  if c.isReady then (c, none)
  else
    match analyzeRun c.options c.controllerModules c.fnModules ⟨c.routes, c.routesPriority⟩ with
    | (st, none) =>
      ({ c with routes := st.routes, routesPriority := st.routesPriority, isReady := true }, none)
    | (st, some e) =>
      ({ c with routes := st.routes, routesPriority := st.routesPriority }, some e)

/-- `getRoutePriorityList` (lines 478–484). -/
def getRoutePriorityList (c : WebRouterCollector) :
    WebRouterCollector × Except CollectorError (List RouterPriority) :=
  match ensureReady c with
  | (c, none) => (c, Except.ok c.routesPriority)
  | (c, some e) => (c, Except.error e)

/-- `getRouterTable` (lines 486–492). -/
def getRouterTable (c : WebRouterCollector) :
    WebRouterCollector × Except CollectorError RoutesMap :=
  match ensureReady c with
  | (c, none) => (c, Except.ok c.routes)
  | (c, some e) => (c, Except.error e)

/-- `getFlattenRouterTable` (lines 494–504): concatenate the groups' entry
lists in group-priority order. -/
def getFlattenRouterTable (c : WebRouterCollector) :
    WebRouterCollector × Except CollectorError (List RouterInfo) :=
  match ensureReady c with
  | (c, none) =>
    (c, Except.ok (c.routesPriority.foldl
      (fun routeArr routerPriority =>
        routeArr ++ ((mapGet c.routes routerPriority.prefixPath).getD [])) []))
  | (c, some e) => (c, Except.error e)

/-! ## Claim-language predicates and concrete fixtures -/

/-- "`a` is sorted strictly earlier than `b`" as the code comparator orders
entries: descending category, then descending weight, then descending
depth; on a depth tie, the shorter raw url wins when the pure routers are
identical strings, otherwise the longer pure router wins. -/
abbrev strictlyPrecedes (a b : SortedRouterInfo) : Prop :=
  b.category < a.category ∨ (a.category = b.category ∧ b.weight < a.weight) ∨
    (a.category = b.category ∧ a.weight = b.weight ∧ b.level < a.level) ∨
    (a.category = b.category ∧ a.weight = b.weight ∧ a.level = b.level ∧
      ((b.pureRouter = a.pureRouter ∧ a.url.length < b.url.length) ∨
        (¬b.pureRouter = a.pureRouter ∧ b.pureRouter.length < a.pureRouter.length)))

/-- "`a` is sorted strictly earlier than `b`" as claim C1 reads the final
tiebreak: on a depth tie, longer normalized form first, and on a normalized
form *length* tie, shorter raw pattern first. -/
abbrev specC1Precedes (a b : SortedRouterInfo) : Prop :=
  b.category < a.category ∨ (a.category = b.category ∧ b.weight < a.weight) ∨
    (a.category = b.category ∧ a.weight = b.weight ∧ b.level < a.level) ∨
    (a.category = b.category ∧ a.weight = b.weight ∧ a.level = b.level ∧
      (b.pureRouter.length < a.pureRouter.length ∨
        (a.pureRouter.length = b.pureRouter.length ∧ a.url.length < b.url.length)))

/-- A fully literal pattern: no parameter sigil, no wildcard. -/
abbrev isLiteralPattern (u : String) : Prop :=
  containsChar u ':' = false ∧ containsChar u '*' = false

/-- A pattern containing a parameter sigil but no wildcard. -/
abbrev isParamPattern (u : String) : Prop :=
  containsChar u ':' = true ∧ containsChar u '*' = false

/-- A pattern containing a wildcard. -/
abbrev isWildcardPattern (u : String) : Prop :=
  containsChar u '*' = true

/-- ASCII lowercase of a string (to state that two method strings differ
only in letter case). -/
def asciiLower (s : String) : String :=
  String.mk (s.toList.map fun c =>
    if 'A' ≤ c ∧ c ≤ 'Z' then Char.ofNat (c.toNat + 32) else c)

/-- A route entry with the given pattern and fixed opaque payload, for
concrete instances. -/
def mkEntry (u : String) : RouterInfo :=
  ⟨1, "/", "", u, "get", "m", "c.m", "c.m", "c", [], []⟩

/-- Options of a collector with no global prefix and no function router. -/
def sampleOptions : RouterCollectorOptions := ⟨false, ""⟩

/-- A controller at the root prefix with a single `GET /a` route. -/
def rootController : ControllerModule :=
  ⟨"home", 1, "", [], false, [⟨"/a", "get", "m1", "", false, []⟩]⟩

/-- A controller mounted (ignoring the global prefix) at the length-1
prefix `"a"`, with a single `GET /x` route. -/
def prefixAController : ControllerModule :=
  ⟨"aaa", 2, "a", [], true, [⟨"/x", "get", "m1", "", false, []⟩]⟩

/-- A controller registering `GET /users` twice. -/
def duplicateController : ControllerModule :=
  ⟨"c", 1, "", [], false,
    [⟨"/users", "get", "m1", "", false, []⟩, ⟨"/users", "get", "m2", "", false, []⟩]⟩

/-- A controller whose own prefix contains a wildcard. -/
def starController : ControllerModule := ⟨"s", 3, "a*", [], true, []⟩

/-- An entry `GET /users` (uppercase method). -/
def getUsersUpper : RouterInfo :=
  ⟨1, "/", "", "/users", "GET", "m1", "c.m1", "c.m1", "c", [], []⟩

/-- An entry `get /users` (lowercase method), same pattern as
`getUsersUpper`. -/
def getUsersLower : RouterInfo :=
  ⟨2, "/", "", "/users", "get", "m2", "c.m2", "c.m2", "c", [], []⟩

/-- An entry with an empty pattern and a non-empty method. -/
def emptyUrlEntry : RouterInfo :=
  ⟨1, "/", "", "", "GET", "m1", "c.m1", "c.m1", "c", [], []⟩

/-- The entry `duplicateController`'s first member produces. -/
def usersEntryM1 : RouterInfo :=
  ⟨1, "/", "", "/users", "get", "m1", "c.m1", "c.m1", "c", [], []⟩

/-- The state `analyze` leaves behind when `duplicateController`'s second
member throws: the root group already holds the first entry. -/
def dupPartialState : CollectorState :=
  ⟨[("/", [usersEntryM1])], [⟨"/", -999, [], "c"⟩]⟩

/-- The duplicate-route error `duplicateController` provokes. -/
def dupError : DuplicateRouteErrorInfo := ⟨"get /users", "c.m1", "c.m2"⟩

/-! ## Generic facts about the stable sort model -/

theorem insertCmp_perm {α : Type} (cmp : α → α → Int) (e : α) (l : List α) :
    (insertCmp cmp e l).Perm (e :: l) := by
  induction l with
  | nil => exact List.Perm.refl _
  | cons x xs ih =>
    by_cases h : cmp e x < 0
    · simp [insertCmp, h]
    · simp only [insertCmp, h, if_false]
      exact (ih.cons x).trans (List.Perm.swap e x xs)

theorem foldl_insert_perm {α : Type} (cmp : α → α → Int) :
    ∀ (l acc : List α), (l.foldl (fun a e => insertCmp cmp e a) acc).Perm (acc ++ l)
  | [], acc => by simp
  | x :: xs, acc => by
    have h1 := foldl_insert_perm cmp xs (insertCmp cmp x acc)
    have h2 : (insertCmp cmp x acc ++ xs).Perm (acc ++ x :: xs) := by
      have := (insertCmp_perm cmp x acc).append_right xs
      exact this.trans List.perm_middle.symm
    exact h1.trans h2

theorem sortByCmp_perm {α : Type} (cmp : α → α → Int) (l : List α) :
    (sortByCmp cmp l).Perm l := by
  simpa [sortByCmp] using foldl_insert_perm cmp l []

theorem mem_insertCmp {α : Type} {cmp : α → α → Int} {e a : α} {l : List α} :
    a ∈ insertCmp cmp e l ↔ a = e ∨ a ∈ l := by
  rw [(insertCmp_perm cmp e l).mem_iff, List.mem_cons]

theorem insertCmp_pairwise {α : Type} {cmp : α → α → Int}
    (hA : ∀ a b, cmp a b = -cmp b a)
    (hT : ∀ a b c, cmp a b < 0 → cmp b c ≤ 0 → cmp a c ≤ 0)
    (e : α) {l : List α} (h : l.Pairwise fun a b => cmp a b ≤ 0) :
    (insertCmp cmp e l).Pairwise fun a b => cmp a b ≤ 0 := by
  induction l with
  | nil => simp [insertCmp]
  | cons x xs ih =>
    rw [List.pairwise_cons] at h
    obtain ⟨hx, hxs⟩ := h
    by_cases hlt : cmp e x < 0
    · simp only [insertCmp, hlt, if_true]
      refine List.Pairwise.cons ?_ (List.Pairwise.cons hx hxs)
      intro y hy
      rcases List.mem_cons.mp hy with rfl | hy
      · exact le_of_lt hlt
      · exact hT e x y hlt (hx y hy)
    · simp only [insertCmp, hlt, if_false]
      refine List.Pairwise.cons ?_ (ih hxs)
      intro y hy
      rcases mem_insertCmp.mp hy with rfl | hy
      · have := hA x y
        omega
      · exact hx y hy

theorem foldl_insert_pairwise {α : Type} {cmp : α → α → Int}
    (hA : ∀ a b, cmp a b = -cmp b a)
    (hT : ∀ a b c, cmp a b < 0 → cmp b c ≤ 0 → cmp a c ≤ 0) :
    ∀ (l acc : List α), acc.Pairwise (fun a b => cmp a b ≤ 0) →
      (l.foldl (fun a e => insertCmp cmp e a) acc).Pairwise fun a b => cmp a b ≤ 0
  | [], _, h => h
  | x :: xs, acc, h =>
    foldl_insert_pairwise hA hT xs (insertCmp cmp x acc) (insertCmp_pairwise hA hT x h)

theorem sortByCmp_pairwise {α : Type} {cmp : α → α → Int}
    (hA : ∀ a b, cmp a b = -cmp b a)
    (hT : ∀ a b c, cmp a b < 0 → cmp b c ≤ 0 → cmp a c ≤ 0) (l : List α) :
    (sortByCmp cmp l).Pairwise fun a b => cmp a b ≤ 0 :=
  foldl_insert_pairwise hA hT l [] (List.Pairwise.nil)

/-! ## Order-theoretic properties of the two comparators -/

theorem cmpCore_antisymm (ca wa la : Nat) (pa : String) (ra : Nat)
    (cb wb lb : Nat) (pb : String) (rb : Nat) :
    cmpCore ca wa la pa ra cb wb lb pb rb = -cmpCore cb wb lb pb rb ca wa la pa ra := by
  unfold cmpCore
  split_ifs <;> first | omega | simp_all

theorem cmpCore_neg_iff (ca wa la : Nat) (pa : String) (ra : Nat)
    (cb wb lb : Nat) (pb : String) (rb : Nat) :
    cmpCore ca wa la pa ra cb wb lb pb rb < 0 ↔
      cb < ca ∨ (ca = cb ∧ wb < wa) ∨ (ca = cb ∧ wa = wb ∧ lb < la) ∨
        (ca = cb ∧ wa = wb ∧ la = lb ∧
          ((pb = pa ∧ ra < rb) ∨ (¬pb = pa ∧ pb.length < pa.length))) := by
  unfold cmpCore
  split_ifs with h1 h2 h3 h4
  · constructor
    · intro h; left; omega
    · rintro (h | ⟨he, _⟩ | ⟨he, _, _⟩ | ⟨he, _, _, _⟩) <;> omega
  · constructor
    · intro h; right; left; exact ⟨by omega, by omega⟩
    · rintro (h | ⟨he, hw⟩ | ⟨he, hw, _⟩ | ⟨he, hw, _, _⟩) <;> omega
  · constructor
    · intro h
      right; right; right
      exact ⟨by omega, by omega, h3, Or.inl ⟨h4, by omega⟩⟩
    · rintro (h | ⟨_, hw⟩ | ⟨_, _, hl⟩ | ⟨_, _, _, (⟨_, hr⟩ | ⟨hne, _⟩)⟩)
      · omega
      · omega
      · omega
      · omega
      · exact absurd h4 hne
  · constructor
    · intro h
      right; right; right
      exact ⟨by omega, by omega, h3, Or.inr ⟨h4, by omega⟩⟩
    · rintro (h | ⟨_, hw⟩ | ⟨_, _, hl⟩ | ⟨_, _, _, (⟨heq, _⟩ | ⟨_, hlen⟩)⟩)
      · omega
      · omega
      · omega
      · exact absurd heq h4
      · omega
  · constructor
    · intro h; right; right; left; exact ⟨by omega, by omega, by omega⟩
    · rintro (h | ⟨_, hw⟩ | ⟨_, _, hl⟩ | ⟨_, _, hl, _⟩) <;> omega

theorem cmpCore_nonpos_iff (ca wa la : Nat) (pa : String) (ra : Nat)
    (cb wb lb : Nat) (pb : String) (rb : Nat) :
    cmpCore ca wa la pa ra cb wb lb pb rb ≤ 0 ↔
      cb < ca ∨ (ca = cb ∧ wb < wa) ∨ (ca = cb ∧ wa = wb ∧ lb < la) ∨
        (ca = cb ∧ wa = wb ∧ la = lb ∧
          ((pb = pa ∧ ra ≤ rb) ∨ (¬pb = pa ∧ pb.length ≤ pa.length))) := by
  unfold cmpCore
  split_ifs with h1 h2 h3 h4
  · constructor
    · intro h; left; omega
    · rintro (h | ⟨he, _⟩ | ⟨he, _, _⟩ | ⟨he, _, _, _⟩) <;> omega
  · constructor
    · intro h; right; left; exact ⟨by omega, by omega⟩
    · rintro (h | ⟨he, hw⟩ | ⟨he, hw, _⟩ | ⟨he, hw, _, _⟩) <;> omega
  · constructor
    · intro h
      right; right; right
      exact ⟨by omega, by omega, h3, Or.inl ⟨h4, by omega⟩⟩
    · rintro (h | ⟨_, hw⟩ | ⟨_, _, hl⟩ | ⟨_, _, _, (⟨_, hr⟩ | ⟨hne, _⟩)⟩)
      · omega
      · omega
      · omega
      · omega
      · exact absurd h4 hne
  · constructor
    · intro h
      right; right; right
      exact ⟨by omega, by omega, h3, Or.inr ⟨h4, by omega⟩⟩
    · rintro (h | ⟨_, hw⟩ | ⟨_, _, hl⟩ | ⟨_, _, _, (⟨heq, _⟩ | ⟨_, hlen⟩)⟩)
      · omega
      · omega
      · omega
      · exact absurd heq h4
      · omega
  · constructor
    · intro h; right; right; left; exact ⟨by omega, by omega, by omega⟩
    · rintro (h | ⟨_, hw⟩ | ⟨_, _, hl⟩ | ⟨_, _, hl, _⟩) <;> omega

theorem cmpCore_trans_le (ca wa la : Nat) (pa : String) (ra : Nat)
    (cb wb lb : Nat) (pb : String) (rb : Nat)
    (cc wc lc : Nat) (pc : String) (rc : Nat)
    (h1 : cmpCore ca wa la pa ra cb wb lb pb rb < 0)
    (h2 : cmpCore cb wb lb pb rb cc wc lc pc rc ≤ 0) :
    cmpCore ca wa la pa ra cc wc lc pc rc ≤ 0 := by
  rw [cmpCore_neg_iff] at h1
  rw [cmpCore_nonpos_iff] at h2 ⊢
  rcases h1 with h1 | ⟨e1, h1⟩ | ⟨e1, e2, h1⟩ | ⟨e1, e2, e3, h1⟩ <;>
    rcases h2 with h2 | ⟨f1, h2⟩ | ⟨f1, f2, h2⟩ | ⟨f1, f2, f3, h2⟩
  · left; omega
  · left; omega
  · left; omega
  · left; omega
  · left; omega
  · right; left; exact ⟨by omega, by omega⟩
  · right; left; exact ⟨by omega, by omega⟩
  · right; left; exact ⟨by omega, by omega⟩
  · left; omega
  · right; left; exact ⟨by omega, by omega⟩
  · right; right; left; exact ⟨by omega, by omega, by omega⟩
  · right; right; left; exact ⟨by omega, by omega, by omega⟩
  · left; omega
  · right; left; exact ⟨by omega, by omega⟩
  · right; right; left; exact ⟨by omega, by omega, by omega⟩
  · -- both comparisons land in the depth-tie tiebreak
    right; right; right
    refine ⟨by omega, by omega, by omega, ?_⟩
    rcases h1 with ⟨hba, hr1⟩ | ⟨hba, hl1⟩ <;> rcases h2 with ⟨hcb, hr2⟩ | ⟨hcb, hl2⟩
    · exact Or.inl ⟨hcb.trans hba, by omega⟩
    · refine Or.inr ⟨fun h => hcb (h.trans hba.symm), ?_⟩
      have := congrArg String.length hba
      omega
    · refine Or.inr ⟨fun h => hba (hcb.symm.trans h), ?_⟩
      have := congrArg String.length hcb
      omega
    · have hlen : pc.length < pa.length := by omega
      refine Or.inr ⟨fun h => ?_, by omega⟩
      have := congrArg String.length h
      omega

/-! ## The route comparator through `cmpCore` -/

theorem routerCmp_eq_core (a b : SortedRouterInfo) :
    routerCmp a b =
      cmpCore a.category a.weight a.level a.pureRouter a.url.length
        b.category b.weight b.level b.pureRouter b.url.length := rfl

theorem routerCmp_antisymm (a b : SortedRouterInfo) : routerCmp a b = -routerCmp b a := by
  rw [routerCmp_eq_core, routerCmp_eq_core]
  exact cmpCore_antisymm _ _ _ _ _ _ _ _ _ _

theorem routerCmp_trans_le (a b c : SortedRouterInfo)
    (h1 : routerCmp a b < 0) (h2 : routerCmp b c ≤ 0) : routerCmp a c ≤ 0 := by
  rw [routerCmp_eq_core] at h1 h2 ⊢
  exact cmpCore_trans_le _ _ _ _ _ _ _ _ _ _ _ _ _ _ _ h1 h2

theorem sortRouter_perm (l : List RouterInfo) :
    (sortRouter l).Perm (l.map decorateRouter) :=
  sortByCmp_perm _ _

theorem sortRouter_pairwise (l : List RouterInfo) :
    (sortRouter l).Pairwise fun a b => routerCmp a b ≤ 0 :=
  sortByCmp_pairwise routerCmp_antisymm routerCmp_trans_le _

theorem strictlyPrecedes_iff (a b : SortedRouterInfo) :
    strictlyPrecedes a b ↔ routerCmp a b < 0 := by
  rw [routerCmp_eq_core, cmpCore_neg_iff]

/-! ## Facts about the decoration step -/

theorem decorate_url (x : RouterInfo) : (decorateRouter x).url = x.url := rfl

theorem decorate_paramString_empty (x : RouterInfo) (h : containsChar x.url ':' = false) :
    (decorateRouter x).paramString = "" := by
  simp [decorateRouter, h]

theorem decorate_category_eq (x : RouterInfo) :
    (decorateRouter x).category =
      if containsChar x.url '*' then 0
      else if (decorateRouter x).paramString ≠ "" then 1 else 2 := rfl

theorem category_of_literal (x : RouterInfo) (h : isLiteralPattern x.url) :
    (decorateRouter x).category = 2 := by
  rw [decorate_category_eq, decorate_paramString_empty x h.1]
  simp [h.2]

theorem category_of_param (x : RouterInfo) (h : containsChar x.url '*' = false)
    (hp : (decorateRouter x).paramString ≠ "") :
    (decorateRouter x).category = 1 := by
  rw [decorate_category_eq]
  simp [h, hp]

theorem category_of_wildcard (x : RouterInfo) (h : containsChar x.url '*' = true) :
    (decorateRouter x).category = 0 := by
  rw [decorate_category_eq]
  simp [h]

theorem category_pos_of_no_wildcard (x : RouterInfo) (h : containsChar x.url '*' = false) :
    1 ≤ (decorateRouter x).category := by
  rw [decorate_category_eq]
  simp only [h, if_false, Bool.false_eq_true]
  split <;> omega

/-! ## Claim C1 -/

/-- C1, counterexample: for the wildcard patterns `/cd**` (raw length 5,
normalized form `/cd`) and `/ab*` (raw length 4, normalized form `/ab`) the
category, weight, depth and normalized-form *lengths* all tie, so the claim
as stated demands the shorter raw pattern `/ab*` first; the code compares
the normalized forms for *string equality*, finds them different and their
lengths equal, reports a tie, and the stable sort keeps `/cd**` first. -/
theorem sortRouter_spec_tiebreak_counterexample :
    ¬ (sortRouter [mkEntry "/cd**", mkEntry "/ab*"]).Pairwise
        fun a b => ¬specC1Precedes b a := by
  decide

/-- C1 (amended): `sortRouter` returns a permutation of the decorated input
ordered so that no entry strictly precedes — by descending `category`, then
descending `specificityWeight`, then descending `depth`, and on a depth tie
by longer `normalizedForm`, except that when the normalized forms are
*identical strings* the shorter raw pattern wins — an entry placed before
it.  Entries whose normalized forms differ but have equal length compare as
ties and stay in their relative insertion order. -/
theorem sortRouter_ordering_amended (l : List RouterInfo) :
    (sortRouter l).Perm (l.map decorateRouter) ∧
      (sortRouter l).Pairwise fun a b => ¬strictlyPrecedes b a := by
  refine ⟨sortRouter_perm l, (sortRouter_pairwise l).imp ?_⟩
  intro a b hle hstrict
  rw [strictlyPrecedes_iff] at hstrict
  have := routerCmp_antisymm a b
  omega

/-! ## Claim C5 -/

/-- C5, counterexample: the pattern `:id/a/b` contains a parameter segment
and no wildcard, yet because its first character is the parameter sigil the
code's `replace(/:.+$/, '')` yields the empty string and the pattern is
classified as category 2 with weight 2, so it sorts *before* the fully
literal pattern `/ab` (category 2, weight 1). -/
theorem sortRouter_literal_param_counterexample :
    ¬ (sortRouter [mkEntry ":id/a/b", mkEntry "/ab"]).Pairwise
        fun a b => ¬(isParamPattern a.url ∧ isLiteralPattern b.url) := by
  decide

/-- C5 (amended): in `sortRouter`'s output no parameterized no-wildcard
entry whose pattern has a nonempty literal part before the parameter tail
(the code classifies a pattern whose `replace(/:.+$/, '')` is empty — e.g.
one starting with `:` — as literal) precedes a fully literal entry, and no
wildcard entry precedes a wildcard-free entry; in particular
`/ab/*`, `/ab/cd`, `/ab/:id` sort as `/ab/cd`, `/ab/:id`, `/ab/*`, and `/`
sorts before `/*`. -/
theorem sortRouter_category_precedence_amended (l : List RouterInfo) :
    ((sortRouter l).Pairwise fun a b =>
      ¬(isParamPattern a.url ∧ a.paramString ≠ "" ∧ isLiteralPattern b.url) ∧
        ¬(isWildcardPattern a.url ∧ ¬isWildcardPattern b.url)) ∧
      (sortRouter [mkEntry "/ab/*", mkEntry "/ab/cd", mkEntry "/ab/:id"]).map
          (fun e => e.url) = ["/ab/cd", "/ab/:id", "/ab/*"] ∧
      (sortRouter [mkEntry "/*", mkEntry "/"]).map (fun e => e.url) = ["/", "/*"] := by
  refine ⟨?_, by decide, by decide⟩
  refine (sortRouter_pairwise l).imp_of_mem ?_
  intro a b ha hb hle
  have hmema : a ∈ l.map decorateRouter := (sortRouter_perm l).mem_iff.mp ha
  have hmemb : b ∈ l.map decorateRouter := (sortRouter_perm l).mem_iff.mp hb
  obtain ⟨x, -, rfl⟩ := List.mem_map.mp hmema
  obtain ⟨y, -, rfl⟩ := List.mem_map.mp hmemb
  rw [routerCmp_eq_core, cmpCore_nonpos_iff] at hle
  constructor
  · rintro ⟨hp, hps, hlit⟩
    have hca : (decorateRouter x).category = 1 := category_of_param x hp.2 hps
    have hcb : (decorateRouter y).category = 2 := category_of_literal y hlit
    rcases hle with h | ⟨h, -⟩ | ⟨h, -, -⟩ | ⟨h, -, -, -⟩ <;> omega
  · rintro ⟨hw, hnw⟩
    have hca : (decorateRouter x).category = 0 := category_of_wildcard x hw
    have hcb : 1 ≤ (decorateRouter y).category := by
      cases h : containsChar y.url '*' with
      | false => exact category_pos_of_no_wildcard y h
      | true => exact absurd h hnw
    rcases hle with h | ⟨h, -⟩ | ⟨h, -, -⟩ | ⟨h, -, -, -⟩ <;> omega

/-! ## Claims C2 and C3 -/

theorem dupMatched_mem {group : List RouterInfo} {entry m : RouterInfo}
    (h : m ∈ dupMatched group entry) :
    m ∈ group ∧ entry.url ≠ "" ∧ entry.requestMethod ≠ "" ∧
      m.url = entry.url ∧ m.requestMethod = entry.requestMethod := by
  have := List.mem_filter.mp h
  simp only [Bool.and_eq_true, decide_eq_true_eq] at this
  tauto

/-- C2, counterexample: an incoming entry with an *empty* pattern and the
non-empty method `GET`, inserted into a group already holding an identical
entry, satisfies the claim's conflict condition (same pattern, same
non-empty method) yet is appended without error, because the code's filter
also requires the incoming `url` to be truthy. -/
theorem checkDuplicateAndPush_empty_url_counterexample :
    (∃ item ∈ [emptyUrlEntry], item.url = emptyUrlEntry.url ∧
      item.requestMethod = emptyUrlEntry.requestMethod ∧ emptyUrlEntry.requestMethod ≠ "") ∧
      checkDuplicateAndPush [emptyUrlEntry] emptyUrlEntry =
        Except.ok [emptyUrlEntry, emptyUrlEntry] := by
  exact ⟨⟨emptyUrlEntry, List.mem_singleton_self _, rfl, rfl, by decide⟩, rfl⟩

/-- C2 (amended): `checkDuplicateAndPush` raises a duplicate-route error iff
the incoming entry has a non-empty pattern and a non-empty method and some
existing entry of the group has the same pattern and the same method; on
success the entry is appended; on conflict the error carries the requested
method+pattern string, the handler name of an already-registered matching
entry, and the handler name of the rejected duplicate. -/
theorem checkDuplicateAndPush_spec (group : List RouterInfo) (entry : RouterInfo) :
    ((∃ err, checkDuplicateAndPush group entry = Except.error err) ↔
      (entry.url ≠ "" ∧ entry.requestMethod ≠ "" ∧
        ∃ item ∈ group, item.url = entry.url ∧ item.requestMethod = entry.requestMethod)) ∧
      (∀ l, checkDuplicateAndPush group entry = Except.ok l → l = group ++ [entry]) ∧
      (∀ err, checkDuplicateAndPush group entry = Except.error err →
        err.routerUrl = entry.requestMethod ++ " " ++ entry.url ∧
          err.duplicatedHandler = entry.handlerName ∧
          ∃ item ∈ group, item.url = entry.url ∧ item.requestMethod = entry.requestMethod ∧
            err.existHandler = item.handlerName) := by
  unfold checkDuplicateAndPush
  cases hm : dupMatched group entry with
  | nil =>
    refine ⟨?_, ?_, ?_⟩
    · simp only [exists_const]
      constructor
      · rintro ⟨err, h⟩
        exact absurd h (by simp)
      · rintro ⟨hu, hr, item, hmem, h1, h2⟩
        have : item ∈ dupMatched group entry := by
          rw [dupMatched]
          refine List.mem_filter.mpr ⟨hmem, ?_⟩
          simp only [Bool.and_eq_true, decide_eq_true_eq]
          exact ⟨⟨⟨hu, hr⟩, h1⟩, h2⟩
        rw [hm] at this
        cases this
    · intro l h
      injection h with h
      exact h.symm
    · intro err h
      cases h
  | cons m ms =>
    have hmem : m ∈ dupMatched group entry := by
      rw [hm]; exact List.mem_cons_self m ms
    obtain ⟨hg, hu, hr, h1, h2⟩ := dupMatched_mem hmem
    refine ⟨?_, ?_, ?_⟩
    · constructor
      · intro _
        exact ⟨hu, hr, m, hg, h1, h2⟩
      · intro _
        exact ⟨_, rfl⟩
    · intro l h
      cases h
    · intro err h
      injection h with h
      subst h
      exact ⟨rfl, rfl, m, hg, h1, h2, rfl⟩

/-- C3, counterexample: a group holds `GET /users`; inserting `get /users`
(same pattern, methods differing only in letter case) raises no error —
the comparison `item.requestMethod === routerInfo.requestMethod` is
case-sensitive — and the entry is appended. -/
theorem checkDuplicateAndPush_method_case_counterexample :
    getUsersUpper.url = getUsersLower.url ∧
      getUsersLower.requestMethod ≠ "" ∧
      getUsersUpper.requestMethod ≠ getUsersLower.requestMethod ∧
      asciiLower getUsersUpper.requestMethod = asciiLower getUsersLower.requestMethod ∧
      checkDuplicateAndPush [getUsersUpper] getUsersLower =
        Except.ok [getUsersUpper, getUsersLower] := by
  exact ⟨rfl, by decide, by decide, by decide, rfl⟩

/-- C3 (amended): duplicate detection compares request methods by exact
(case-sensitive) string equality, so an incoming entry whose (pattern,
method) pair — with the method compared exactly — matches no existing entry
is appended without error; in particular methods differing only in letter
case do not conflict. -/
theorem checkDuplicateAndPush_distinct_method_ok (group : List RouterInfo) (entry : RouterInfo)
    (h : ∀ item ∈ group, ¬(item.url = entry.url ∧ item.requestMethod = entry.requestMethod)) :
    checkDuplicateAndPush group entry = Except.ok (group ++ [entry]) := by
  have hnil : dupMatched group entry = [] := by
    rw [dupMatched]
    refine List.filter_eq_nil_iff.mpr ?_
    intro m hmem
    simp only [Bool.and_eq_true, decide_eq_true_eq]
    intro hcon
    exact absurd ⟨hcon.1.2, hcon.2⟩ (h m hmem)
  rw [checkDuplicateAndPush, hnil]

/-- Witness for `checkDuplicateAndPush_distinct_method_ok` at the concrete
`GET /users` / `get /users` pair. -/
theorem checkDuplicateAndPush_distinct_method_ok_witness :
    (∀ item ∈ [getUsersUpper], ¬(item.url = getUsersLower.url ∧
      item.requestMethod = getUsersLower.requestMethod)) ∧
      checkDuplicateAndPush [getUsersUpper] getUsersLower =
        Except.ok ([getUsersUpper] ++ [getUsersLower]) :=
  ⟨by decide, checkDuplicateAndPush_distinct_method_ok [getUsersUpper] getUsersLower (by decide)⟩

/-! ## Generic fold lemmas -/

theorem foldl_preserve {α β γ : Type} (f : β → α → β) (g : β → γ)
    (hstep : ∀ acc x, g (f acc x) = g acc) :
    ∀ (l : List α) (acc : β), g (l.foldl f acc) = g acc
  | [], _ => rfl
  | x :: xs, acc => by
    rw [List.foldl_cons, foldl_preserve f g hstep xs (f acc x), hstep]

theorem foldl_inv {α β : Type} {f : β → α → β} {P : β → Prop}
    (hstep : ∀ acc x, P acc → P (f acc x)) :
    ∀ (l : List α) (acc : β), P acc → P (l.foldl f acc)
  | [], _, h => h
  | x :: xs, acc, h => foldl_inv hstep xs (f acc x) (hstep acc x h)

/-! ## Claim C9 -/

/-- C9: `collectRoute` throws the Invalid Prefix error whenever the
resolved effective mount prefix contains a wildcard `*`, and the state is
untouched — no route entry (and no group) from the declaration is
registered. -/
theorem collectRoute_invalid_prefix_spec (opts : RouterCollectorOptions) (st : CollectorState)
    (m : ControllerModule) (h : containsChar (ctrlResolvedPfx opts m) '*' = true) :
    collectRoute opts st m = (st, some (CollectorError.commonError
      ("Router prefix " ++ ctrlResolvedPfx opts m ++ " can't set string with *"))) := by
  unfold collectRoute
  rw [if_pos h]

/-- Witness for `collectRoute_invalid_prefix_spec`: a controller mounted
(ignoring the global prefix) at `a*`. -/
theorem collectRoute_invalid_prefix_spec_witness :
    containsChar (ctrlResolvedPfx sampleOptions starController) '*' = true ∧
      collectRoute sampleOptions initialCollectorState starController =
        (initialCollectorState, some (CollectorError.commonError
          ("Router prefix " ++ ctrlResolvedPfx sampleOptions starController ++
            " can't set string with *"))) :=
  ⟨by decide,
    collectRoute_invalid_prefix_spec sampleOptions initialCollectorState starController
      (by decide)⟩

/-! ## Claim C10 -/

theorem checkDuplicateAndPushState_routesPriority (st : CollectorState) (pfx : String)
    (info : RouterInfo) :
    ((checkDuplicateAndPushState st pfx info).1).routesPriority = st.routesPriority := by
  unfold checkDuplicateAndPushState
  split
  · rfl
  · split
    · rfl
    · rfl

theorem collectRouteStep_routesPriority (id : Nat) (controllerId : String)
    (middleware : List String) (ignorePfx pfx : String)
    (acc : CollectorState × Option CollectorError) (wr : WebRouterDecl) :
    ((collectRouteStep id controllerId middleware ignorePfx pfx acc wr).1).routesPriority =
      (acc.1).routesPriority := by
  unfold collectRouteStep
  split
  · rfl
  · exact checkDuplicateAndPushState_routesPriority _ _ _

theorem collectFunctionRouteStep_routesPriority (id : Nat) (controllerId : String)
    (acc : CollectorState × Option CollectorError) (wr : FuncTrigger) :
    ((collectFunctionRouteStep id controllerId acc wr).1).routesPriority =
      (acc.1).routesPriority := by
  unfold collectFunctionRouteStep
  split
  · rfl
  · split
    · exact checkDuplicateAndPushState_routesPriority _ _ _
    · rfl

theorem ensureGroup_priority_values (pfx : String) (middleware : List String)
    (controllerId : String) (st : CollectorState)
    (h : ∀ p ∈ st.routesPriority, p.priority = if p.prefixPath = "/" then -999 else 0) :
    ∀ p ∈ (ensureGroup none pfx middleware controllerId st).routesPriority,
      p.priority = if p.prefixPath = "/" then -999 else 0 := by
  unfold ensureGroup
  split
  · exact h
  · intro p hp
    rcases List.mem_append.mp hp with hp | hp
    · exact h p hp
    · rw [List.mem_singleton.mp hp]
      simp

theorem collectRoute_priority_values (opts : RouterCollectorOptions) (st : CollectorState)
    (m : ControllerModule)
    (h : ∀ p ∈ st.routesPriority, p.priority = if p.prefixPath = "/" then -999 else 0) :
    ∀ p ∈ ((collectRoute opts st m).1).routesPriority,
      p.priority = if p.prefixPath = "/" then -999 else 0 := by
  simp only [collectRoute]
  split
  · exact h
  · rw [foldl_preserve
      (collectRouteStep m.id m.controllerId m.routerMiddleware (ctrlIgnorePfx m)
        (ctrlResolvedPfx opts m))
      (fun acc => (acc.1).routesPriority)
      (fun acc wr => collectRouteStep_routesPriority _ _ _ _ _ acc wr)
      m.routes
      (ensureGroup none (ctrlIgnorePfx m) m.routerMiddleware m.controllerId
          (ensureGroup none (ctrlResolvedPfx opts m) m.routerMiddleware m.controllerId st),
        none)]
    exact ensureGroup_priority_values _ _ _ _
      (ensureGroup_priority_values _ _ _ _ h)

theorem collectFunctionRoute_priority_values (st : CollectorState) (m : FuncModule)
    (h : ∀ p ∈ st.routesPriority, p.priority = if p.prefixPath = "/" then -999 else 0) :
    ∀ p ∈ ((collectFunctionRoute st m).1).routesPriority,
      p.priority = if p.prefixPath = "/" then -999 else 0 := by
  simp only [collectFunctionRoute]
  rw [foldl_preserve (collectFunctionRouteStep m.id m.controllerId)
    (fun acc => (acc.1).routesPriority)
    (fun acc wr => collectFunctionRouteStep_routesPriority _ _ acc wr) m.triggers]
  split
  · exact h
  · intro p hp
    rcases List.mem_append.mp hp with hp | hp
    · exact h p hp
    · rw [List.mem_singleton.mp hp]
      rfl

theorem collectPhase_priority_values (opts : RouterCollectorOptions)
    (ctrls : List ControllerModule) (fns : List FuncModule) :
    ∀ p ∈ ((collectPhase opts ctrls fns initialCollectorState).1).routesPriority,
      p.priority = if p.prefixPath = "/" then -999 else 0 := by
  have hstep : ∀ (acc : CollectorState × Option CollectorError) (m : ControllerModule),
      (∀ p ∈ (acc.1).routesPriority, p.priority = if p.prefixPath = "/" then -999 else 0) →
      ∀ p ∈ ((collectStep opts acc m).1).routesPriority,
        p.priority = if p.prefixPath = "/" then -999 else 0 := by
    rintro ⟨st, err⟩ m hInv
    cases err with
    | some e => exact hInv
    | none => exact collectRoute_priority_values opts st m hInv
  have hfnstep : ∀ (acc : CollectorState × Option CollectorError) (m : FuncModule),
      (∀ p ∈ (acc.1).routesPriority, p.priority = if p.prefixPath = "/" then -999 else 0) →
      ∀ p ∈ ((collectFnStep acc m).1).routesPriority,
        p.priority = if p.prefixPath = "/" then -999 else 0 := by
    rintro ⟨st, err⟩ m hInv
    cases err with
    | some e => exact hInv
    | none => exact collectFunctionRoute_priority_values st m hInv
  have hctrl := foldl_inv
    (P := fun acc : CollectorState × Option CollectorError =>
      ∀ p ∈ (acc.1).routesPriority, p.priority = if p.prefixPath = "/" then -999 else 0)
    hstep ctrls (initialCollectorState, none) (by intro p hp; cases hp)
  unfold collectPhase
  split
  · exact foldl_inv
      (P := fun acc : CollectorState × Option CollectorError =>
        ∀ p ∈ (acc.1).routesPriority, p.priority = if p.prefixPath = "/" then -999 else 0)
      hfnstep fns _ hctrl
  · exact hctrl

theorem cleanup_fst_subset :
    ∀ (todo done : List RouterPriority) (rts : RoutesMap) (p : RouterPriority),
      p ∈ (todo.foldl cleanupStep (done, rts)).1 → p ∈ done ∨ p ∈ todo
  | [], done, rts, p => fun h => Or.inl h
  | item :: rest, done, rts, p => by
    intro h
    rw [List.foldl_cons] at h
    simp only [cleanupStep] at h
    by_cases hc : ((mapGet rts item.prefixPath).getD []).length > 0
    · rw [if_pos hc] at h
      rcases cleanup_fst_subset rest (done ++ [item]) rts p h with hd | hr
      · rcases List.mem_append.mp hd with hd | hd
        · exact Or.inl hd
        · exact Or.inr (List.mem_cons.mpr (Or.inl (List.mem_singleton.mp hd)))
      · exact Or.inr (List.mem_cons.mpr (Or.inr hr))
    · rw [if_neg hc] at h
      rcases cleanup_fst_subset rest done (mapDelete rts item.prefixPath) p h with hd | hr
      · exact Or.inl hd
      · exact Or.inr (List.mem_cons.mpr (Or.inr hr))

/-- C10: every group-priority record reachable from a collection pass
(whether it succeeds or aborts) has priority −999 exactly when its prefix
is `"/"` and 0 otherwise; the declared `priority` hint (the local variable
in `collectRoute`) is never assigned before being tested, so no other value
occurs. -/
theorem routesPriority_values (opts : RouterCollectorOptions) (ctrls : List ControllerModule)
    (fns : List FuncModule) :
    ∀ p ∈ ((analyzeRun opts ctrls fns initialCollectorState).1).routesPriority,
      p.priority = if p.prefixPath = "/" then -999 else 0 := by
  unfold analyzeRun
  cases hsc : collectPhase opts ctrls fns initialCollectorState with
  | mk st1 err1 =>
    have hbase := collectPhase_priority_values opts ctrls fns
    rw [hsc] at hbase
    cases err1 with
    | some e => exact hbase
    | none =>
      intro p hp
      simp only at hp
      have hp2 : p ∈ (st1.routesPriority.foldl cleanupStep ([], st1.routes)).1 :=
        (sortByCmp_perm prefixLenCmp _).mem_iff.mp hp
      rcases cleanup_fst_subset st1.routesPriority [] st1.routes p hp2 with hd | hr
      · cases hd
      · exact hbase p hr

/-- Witness for `routesPriority_values`: the root record of the
single-controller pass. -/
theorem routesPriority_values_witness :
    (⟨"/", -999, [], "home"⟩ : RouterPriority) ∈
        ((analyzeRun sampleOptions [rootController] [] initialCollectorState).1).routesPriority ∧
      (⟨"/", -999, [], "home"⟩ : RouterPriority).priority =
        if (⟨"/", -999, [], "home"⟩ : RouterPriority).prefixPath = "/" then -999 else 0 :=
  ⟨by decide,
    routesPriority_values sampleOptions [rootController] [] ⟨"/", -999, [], "home"⟩ (by decide)⟩

/-! ## Association-map lemmas -/

theorem mapHas_iff_mem (m : RoutesMap) (k : String) :
    mapHas m k = true ↔ k ∈ m.map Prod.fst := by
  simp only [mapHas, List.any_eq_true, decide_eq_true_eq, List.mem_map]

theorem mapSet_fst_of_has (m : RoutesMap) (k : String) (v : List RouterInfo)
    (h : mapHas m k = true) : (mapSet m k v).map Prod.fst = m.map Prod.fst := by
  unfold mapSet
  rw [if_pos h, List.map_map]
  apply List.map_congr_left
  intro p _
  simp only [Function.comp_apply]
  split
  · rename_i hp
    exact hp.symm
  · rfl

theorem mapSet_fst_of_not_has (m : RoutesMap) (k : String) (v : List RouterInfo)
    (h : mapHas m k = false) : (mapSet m k v).map Prod.fst = m.map Prod.fst ++ [k] := by
  unfold mapSet
  rw [h]
  simp

theorem mapGet_some_has {m : RoutesMap} {k : String} {v : List RouterInfo}
    (h : mapGet m k = some v) : mapHas m k = true := by
  unfold mapGet at h
  obtain ⟨p, hp1, hp2⟩ := Option.map_eq_some'.mp h
  have hmem := List.mem_of_find?_eq_some hp1
  have hpred := List.find?_some hp1
  rw [mapHas, List.any_eq_true]
  exact ⟨p, hmem, hpred⟩

theorem mem_keys_exists_get (m : RoutesMap) (k : String) (h : k ∈ m.map Prod.fst) :
    ∃ v, mapGet m k = some v := by
  induction m with
  | nil => cases h
  | cons p rest ih =>
    by_cases hp : p.1 = k
    · exact ⟨p.2, by simp [mapGet, List.find?_cons_of_pos, hp]⟩
    · have hk : k ∈ rest.map Prod.fst := by
        rcases List.mem_cons.mp h with h | h
        · exact absurd h.symm hp
        · exact h
      obtain ⟨v, hv⟩ := ih hk
      refine ⟨v, ?_⟩
      rw [mapGet, List.find?_cons_of_neg]
      · exact hv
      · simpa using hp

theorem mapGet_eq_some_of_mem {m : RoutesMap} {q : String × List RouterInfo}
    (hnd : (m.map Prod.fst).Nodup) (hq : q ∈ m) : mapGet m q.1 = some q.2 := by
  induction m with
  | nil => cases hq
  | cons p rest ih =>
    rcases List.mem_cons.mp hq with rfl | hq
    · simp [mapGet, List.find?_cons_of_pos]
    · have hnd' := hnd
      rw [List.map_cons, List.nodup_cons] at hnd'
      have hp : ¬p.1 = q.1 := by
        intro he
        exact hnd'.1 (he ▸ List.mem_map_of_mem Prod.fst hq)
      rw [mapGet, List.find?_cons_of_neg]
      · exact ih hnd'.2 hq
      · simpa using hp

theorem mapDelete_fst (m : RoutesMap) (k : String) :
    (mapDelete m k).map Prod.fst = (m.map Prod.fst).filter (fun s => s ≠ k) := by
  induction m with
  | nil => rfl
  | cons p rest ih =>
    by_cases hp : p.1 = k
    · simp only [mapDelete, List.filter_cons, List.map_cons]
      rw [if_neg (by simp [hp]), if_neg (by simp [hp])]
      exact ih
    · simp only [mapDelete, List.filter_cons, List.map_cons]
      rw [if_pos (by simp [hp]), if_pos (by simp [hp]), List.map_cons]
      rw [mapDelete] at ih
      rw [ih]

theorem mapDelete_mem {m : RoutesMap} {k : String} {q : String × List RouterInfo}
    (h : q ∈ mapDelete m k) : q ∈ m ∧ q.1 ≠ k := by
  have := List.mem_filter.mp h
  simpa using this

/-! ## Key/priority alignment through the collection phase -/

theorem ensureGroup_wf (hint : Option Int) (pfx : String) (mw : List String) (cid : String)
    (st : CollectorState)
    (h1 : st.routes.map Prod.fst = st.routesPriority.map RouterPriority.prefixPath)
    (h2 : (st.routes.map Prod.fst).Nodup) :
    (ensureGroup hint pfx mw cid st).routes.map Prod.fst =
        (ensureGroup hint pfx mw cid st).routesPriority.map RouterPriority.prefixPath ∧
      ((ensureGroup hint pfx mw cid st).routes.map Prod.fst).Nodup := by
  unfold ensureGroup
  split
  · exact ⟨h1, h2⟩
  · rename_i hhas
    have hf : mapHas st.routes pfx = false := by
      cases hh : mapHas st.routes pfx
      · rfl
      · exact absurd hh hhas
    have hnot : pfx ∉ st.routes.map Prod.fst := by
      intro hmem
      rw [← mapHas_iff_mem] at hmem
      rw [hmem] at hf
      cases hf
    constructor
    · rw [mapSet_fst_of_not_has _ _ _ hf]
      simp [h1]
    · rw [mapSet_fst_of_not_has _ _ _ hf]
      simp [List.nodup_append, h2, hnot]

theorem checkDuplicateAndPushState_fst (st : CollectorState) (pfx : String)
    (info : RouterInfo) :
    ((checkDuplicateAndPushState st pfx info).1).routes.map Prod.fst =
      st.routes.map Prod.fst := by
  unfold checkDuplicateAndPushState
  split
  · rfl
  · rename_i prefixList hg
    split
    · rfl
    · exact mapSet_fst_of_has _ _ _ (mapGet_some_has hg)

theorem collectRouteStep_fst (id : Nat) (controllerId : String) (middleware : List String)
    (ignorePfx pfx : String) (acc : CollectorState × Option CollectorError)
    (wr : WebRouterDecl) :
    ((collectRouteStep id controllerId middleware ignorePfx pfx acc wr).1).routes.map Prod.fst =
      ((acc.1).routes).map Prod.fst := by
  unfold collectRouteStep
  split
  · rfl
  · exact checkDuplicateAndPushState_fst _ _ _

theorem collectFunctionRouteStep_fst (id : Nat) (controllerId : String)
    (acc : CollectorState × Option CollectorError) (wr : FuncTrigger) :
    ((collectFunctionRouteStep id controllerId acc wr).1).routes.map Prod.fst =
      ((acc.1).routes).map Prod.fst := by
  unfold collectFunctionRouteStep
  split
  · rfl
  · split
    · exact checkDuplicateAndPushState_fst _ _ _
    · rfl

theorem collectRoute_wf (opts : RouterCollectorOptions) (st : CollectorState)
    (m : ControllerModule)
    (h1 : st.routes.map Prod.fst = st.routesPriority.map RouterPriority.prefixPath)
    (h2 : (st.routes.map Prod.fst).Nodup) :
    ((collectRoute opts st m).1).routes.map Prod.fst =
        ((collectRoute opts st m).1).routesPriority.map RouterPriority.prefixPath ∧
      (((collectRoute opts st m).1).routes.map Prod.fst).Nodup := by
  simp only [collectRoute]
  split
  · exact ⟨h1, h2⟩
  · rw [foldl_preserve
      (collectRouteStep m.id m.controllerId m.routerMiddleware (ctrlIgnorePfx m)
        (ctrlResolvedPfx opts m))
      (fun acc => ((acc.1).routes).map Prod.fst)
      (fun acc wr => collectRouteStep_fst _ _ _ _ _ acc wr) m.routes
      (ensureGroup none (ctrlIgnorePfx m) m.routerMiddleware m.controllerId
          (ensureGroup none (ctrlResolvedPfx opts m) m.routerMiddleware m.controllerId st),
        none),
      foldl_preserve
      (collectRouteStep m.id m.controllerId m.routerMiddleware (ctrlIgnorePfx m)
        (ctrlResolvedPfx opts m))
      (fun acc => (acc.1).routesPriority)
      (fun acc wr => collectRouteStep_routesPriority _ _ _ _ _ acc wr) m.routes
      (ensureGroup none (ctrlIgnorePfx m) m.routerMiddleware m.controllerId
          (ensureGroup none (ctrlResolvedPfx opts m) m.routerMiddleware m.controllerId st),
        none)]
    have hA := ensureGroup_wf none (ctrlResolvedPfx opts m) m.routerMiddleware m.controllerId
      st h1 h2
    exact ensureGroup_wf none (ctrlIgnorePfx m) m.routerMiddleware m.controllerId _ hA.1 hA.2

theorem collectFunctionRoute_wf (st : CollectorState) (m : FuncModule)
    (h1 : st.routes.map Prod.fst = st.routesPriority.map RouterPriority.prefixPath)
    (h2 : (st.routes.map Prod.fst).Nodup) :
    ((collectFunctionRoute st m).1).routes.map Prod.fst =
        ((collectFunctionRoute st m).1).routesPriority.map RouterPriority.prefixPath ∧
      (((collectFunctionRoute st m).1).routes.map Prod.fst).Nodup := by
  simp only [collectFunctionRoute]
  rw [foldl_preserve (collectFunctionRouteStep m.id m.controllerId)
      (fun acc => ((acc.1).routes).map Prod.fst)
      (fun acc wr => collectFunctionRouteStep_fst _ _ acc wr) m.triggers,
    foldl_preserve (collectFunctionRouteStep m.id m.controllerId)
      (fun acc => (acc.1).routesPriority)
      (fun acc wr => collectFunctionRouteStep_routesPriority _ _ acc wr) m.triggers]
  split
  · exact ⟨h1, h2⟩
  · rename_i hhas
    have hf : mapHas st.routes "/" = false := by
      cases hh : mapHas st.routes "/"
      · rfl
      · exact absurd hh hhas
    have hnot : "/" ∉ st.routes.map Prod.fst := by
      intro hmem
      rw [← mapHas_iff_mem] at hmem
      rw [hmem] at hf
      cases hf
    constructor
    · rw [mapSet_fst_of_not_has _ _ _ hf]
      simp [h1]
    · rw [mapSet_fst_of_not_has _ _ _ hf]
      simp [List.nodup_append, h2, hnot]

theorem collectPhase_wf (opts : RouterCollectorOptions) (ctrls : List ControllerModule)
    (fns : List FuncModule) :
    ((collectPhase opts ctrls fns initialCollectorState).1).routes.map Prod.fst =
        ((collectPhase opts ctrls fns initialCollectorState).1).routesPriority.map
          RouterPriority.prefixPath ∧
      (((collectPhase opts ctrls fns initialCollectorState).1).routes.map Prod.fst).Nodup := by
  have hstep : ∀ (acc : CollectorState × Option CollectorError) (m : ControllerModule),
      ((acc.1).routes.map Prod.fst = (acc.1).routesPriority.map RouterPriority.prefixPath ∧
        ((acc.1).routes.map Prod.fst).Nodup) →
      (((collectStep opts acc m).1).routes.map Prod.fst =
          ((collectStep opts acc m).1).routesPriority.map RouterPriority.prefixPath ∧
        (((collectStep opts acc m).1).routes.map Prod.fst).Nodup) := by
    rintro ⟨st, err⟩ m hInv
    cases err with
    | some e => exact hInv
    | none => exact collectRoute_wf opts st m hInv.1 hInv.2
  have hfnstep : ∀ (acc : CollectorState × Option CollectorError) (m : FuncModule),
      ((acc.1).routes.map Prod.fst = (acc.1).routesPriority.map RouterPriority.prefixPath ∧
        ((acc.1).routes.map Prod.fst).Nodup) →
      (((collectFnStep acc m).1).routes.map Prod.fst =
          ((collectFnStep acc m).1).routesPriority.map RouterPriority.prefixPath ∧
        (((collectFnStep acc m).1).routes.map Prod.fst).Nodup) := by
    rintro ⟨st, err⟩ m hInv
    cases err with
    | some e => exact hInv
    | none => exact collectFunctionRoute_wf st m hInv.1 hInv.2
  have hctrl := foldl_inv
    (P := fun acc : CollectorState × Option CollectorError =>
      (acc.1).routes.map Prod.fst = (acc.1).routesPriority.map RouterPriority.prefixPath ∧
        ((acc.1).routes.map Prod.fst).Nodup)
    hstep ctrls (initialCollectorState, none) (by exact ⟨rfl, List.nodup_nil⟩)
  unfold collectPhase
  split
  · exact foldl_inv
      (P := fun acc : CollectorState × Option CollectorError =>
        (acc.1).routes.map Prod.fst = (acc.1).routesPriority.map RouterPriority.prefixPath ∧
          ((acc.1).routes.map Prod.fst).Nodup)
      hfnstep fns _ hctrl
  · exact hctrl

/-! ## The post-pass cleanup -/

theorem cleanup_go :
    ∀ (todo done : List RouterPriority) (rts : RoutesMap),
      rts.map Prod.fst =
          done.map RouterPriority.prefixPath ++ todo.map RouterPriority.prefixPath →
      (rts.map Prod.fst).Nodup →
      (∀ q ∈ rts, q.1 ∈ done.map RouterPriority.prefixPath → q.2 ≠ []) →
      ((todo.foldl cleanupStep (done, rts)).2).map Prod.fst =
          ((todo.foldl cleanupStep (done, rts)).1).map RouterPriority.prefixPath ∧
        (((todo.foldl cleanupStep (done, rts)).2).map Prod.fst).Nodup ∧
        ∀ q ∈ (todo.foldl cleanupStep (done, rts)).2, q.2 ≠ []
  | [], done, rts => by
    intro hkeys hnd hne
    refine ⟨by simpa using hkeys, hnd, ?_⟩
    intro q hq
    refine hne q hq ?_
    have : q.1 ∈ rts.map Prod.fst := List.mem_map_of_mem Prod.fst hq
    rw [hkeys] at this
    simpa using this
  | item :: rest, done, rts => by
    intro hkeys hnd hne
    rw [List.foldl_cons]
    simp only [cleanupStep]
    have hmem : item.prefixPath ∈ rts.map Prod.fst := by
      rw [hkeys]
      exact List.mem_append.mpr (Or.inr (List.mem_cons_self _ _))
    obtain ⟨v, hv⟩ := mem_keys_exists_get _ _ hmem
    rw [hv]
    simp only [Option.getD_some]
    by_cases hl : v.length > 0
    · rw [if_pos hl]
      apply cleanup_go rest (done ++ [item]) rts
      · rw [hkeys]
        simp
      · exact hnd
      · intro q hq hqd
        simp only [List.map_append, List.map_cons, List.map_nil] at hqd
        rcases List.mem_append.mp hqd with hqd | hqd
        · exact hne q hq hqd
        · have hq1 : q.1 = item.prefixPath := by simpa using hqd
          have hget : mapGet rts q.1 = some q.2 := mapGet_eq_some_of_mem hnd hq
          rw [hq1, hv] at hget
          injection hget with hget
          rw [hget] at hl
          intro hcon
          rw [hcon] at hl
          simp at hl
    · rw [if_neg hl]
      have hv0 : v = [] := by
        rcases List.eq_nil_or_concat v with h0 | ⟨l, a, rfl⟩
        · exact h0
        · exfalso
          apply hl
          simp
      -- decompose the key list around item.prefixPath
      have hndr := hnd
      rw [hkeys] at hndr
      have hnotdone : item.prefixPath ∉ done.map RouterPriority.prefixPath := by
        rw [List.nodup_append] at hndr
        intro hmem2
        exact hndr.2.2 hmem2 (by simp)
      have hnotrest : item.prefixPath ∉ rest.map RouterPriority.prefixPath := by
        rw [List.nodup_append] at hndr
        have := hndr.2.1
        rw [List.map_cons, List.nodup_cons] at this
        exact this.1
      have hdel : (mapDelete rts item.prefixPath).map Prod.fst =
          done.map RouterPriority.prefixPath ++ rest.map RouterPriority.prefixPath := by
        rw [mapDelete_fst, hkeys, List.map_cons, List.filter_append, List.filter_cons]
        rw [if_neg (by simp)]
        rw [List.filter_eq_self.mpr, List.filter_eq_self.mpr]
        · intro a ha
          simp only [decide_eq_true_eq]
          intro hcon
          rw [hcon] at ha
          exact hnotrest ha
        · intro a ha
          simp only [decide_eq_true_eq]
          intro hcon
          rw [hcon] at ha
          exact hnotdone ha
      apply cleanup_go rest done (mapDelete rts item.prefixPath)
      · exact hdel
      · rw [hdel]
        have hsub : (done.map RouterPriority.prefixPath ++ rest.map RouterPriority.prefixPath).Sublist
            (done.map RouterPriority.prefixPath ++
              item.prefixPath :: rest.map RouterPriority.prefixPath) :=
          List.Sublist.append_left (List.sublist_cons_self _ _) _
        exact hndr.sublist hsub
      · intro q hq hqd
        obtain ⟨hq1, hq2⟩ := mapDelete_mem hq
        exact hne q hq1 hqd

/-! ## A successful pass -/

theorem analyzeRun_success (opts : RouterCollectorOptions) (ctrls : List ControllerModule)
    (fns : List FuncModule) (st' : CollectorState)
    (h : analyzeRun opts ctrls fns initialCollectorState = (st', none)) :
    (∀ kv ∈ st'.routes, kv.2 ≠ []) ∧
      (∀ s, s ∈ st'.routes.map Prod.fst ↔
        s ∈ st'.routesPriority.map RouterPriority.prefixPath) ∧
      st'.routesPriority.Pairwise
        fun a b => b.prefixPath.length ≤ a.prefixPath.length := by
  unfold analyzeRun at h
  cases hsc : collectPhase opts ctrls fns initialCollectorState with
  | mk st1 err1 =>
    rw [hsc] at h
    cases err1 with
    | some e => simp at h
    | none =>
      simp only at h
      have hst : st' =
          ⟨((st1.routesPriority.foldl cleanupStep ([], st1.routes)).2).map
              (fun kv => (kv.1, (sortRouter kv.2).map SortedRouterInfo.toRouterInfo)),
            sortByCmp prefixLenCmp
              (st1.routesPriority.foldl cleanupStep ([], st1.routes)).1⟩ := by
        have := congrArg Prod.fst h
        simpa using this.symm
      subst hst
      have hwf := collectPhase_wf opts ctrls fns
      rw [hsc] at hwf
      obtain ⟨hwf1, hwf2⟩ := hwf
      obtain ⟨hk, hnd2, hne2⟩ := cleanup_go st1.routesPriority [] st1.routes
        (by simpa using hwf1) hwf2 (by intro q hq hqd; simp at hqd)
      refine ⟨?_, ?_, ?_⟩
      · intro kv hkv
        obtain ⟨kv0, hkv0, rfl⟩ := List.mem_map.mp hkv
        intro hcon
        have h0 : (sortRouter kv0.2).length = 0 := by
          have := congrArg List.length hcon
          simpa using this
        have h1 : kv0.2.length = 0 := by
          have hp := (sortRouter_perm kv0.2).length_eq
          rw [List.length_map] at hp
          omega
        exact hne2 kv0 hkv0 (List.length_eq_zero.mp h1)
      · intro s
        have hkeys2 :
            (((st1.routesPriority.foldl cleanupStep ([], st1.routes)).2).map
              (fun kv => (kv.1, (sortRouter kv.2).map SortedRouterInfo.toRouterInfo))).map
                Prod.fst =
              ((st1.routesPriority.foldl cleanupStep ([], st1.routes)).2).map Prod.fst := by
          rw [List.map_map]
          rfl
        rw [hkeys2, hk]
        exact ((sortByCmp_perm prefixLenCmp _).map RouterPriority.prefixPath).mem_iff.symm
      · have hA : ∀ a b, prefixLenCmp a b = -prefixLenCmp b a := by
          intro a b
          simp only [prefixLenCmp]
          omega
        have hT : ∀ a b c, prefixLenCmp a b < 0 → prefixLenCmp b c ≤ 0 →
            prefixLenCmp a c ≤ 0 := by
          intro a b c
          simp only [prefixLenCmp]
          omega
        refine (sortByCmp_pairwise hA hT _).imp ?_
        intro a b hle
        simp only [prefixLenCmp] at hle
        omega

/-! ## The lazily-initialising facade -/

theorem ensureReady_not_ready_ok (c : WebRouterCollector) (hc : c.isReady = false)
    (st1 : CollectorState)
    (hA : analyzeRun c.options c.controllerModules c.fnModules ⟨c.routes, c.routesPriority⟩ =
      (st1, none)) :
    ensureReady c =
      ({ c with
          routes := st1.routes
          routesPriority := st1.routesPriority
          isReady := true }, none) := by
  unfold ensureReady
  rw [hc]
  simp only [Bool.false_eq_true, if_false]
  rw [hA]

theorem ensureReady_not_ready_err (c : WebRouterCollector) (hc : c.isReady = false)
    (st1 : CollectorState) (e : CollectorError)
    (hA : analyzeRun c.options c.controllerModules c.fnModules ⟨c.routes, c.routesPriority⟩ =
      (st1, some e)) :
    ensureReady c =
      ({ c with
          routes := st1.routes
          routesPriority := st1.routesPriority }, some e) := by
  unfold ensureReady
  rw [hc]
  simp only [Bool.false_eq_true, if_false]
  rw [hA]

theorem ensureReady_ready (c : WebRouterCollector) (hc : c.isReady = true) :
    ensureReady c = (c, none) := by
  unfold ensureReady
  rw [hc]
  simp

theorem getRoutePriorityList_ready (c : WebRouterCollector) (hc : c.isReady = true) :
    getRoutePriorityList c = (c, Except.ok c.routesPriority) := by
  unfold getRoutePriorityList
  rw [ensureReady_ready c hc]

/-! ## Claim C8 -/

/-- C8: after a successful collection pass, every prefix in the route table
maps to a non-empty entry list, the prefixes of `getRoutePriorityList`
coincide (as a set) with the key set of the route table, and the
table/priority list the facade serves are exactly the cached fields. -/
theorem routerTable_views (opts : RouterCollectorOptions) (ctrls : List ControllerModule)
    (fns : List FuncModule)
    (h : ((getRouterTable (newWebRouterCollector opts ctrls fns)).2).isOk = true) :
    (∀ kv ∈ ((getRouterTable (newWebRouterCollector opts ctrls fns)).1).routes, kv.2 ≠ []) ∧
      (∀ s, s ∈ ((getRouterTable (newWebRouterCollector opts ctrls fns)).1).routes.map
            Prod.fst ↔
          s ∈ ((getRouterTable (newWebRouterCollector opts ctrls fns)).1).routesPriority.map
            RouterPriority.prefixPath) ∧
      getRoutePriorityList ((getRouterTable (newWebRouterCollector opts ctrls fns)).1) =
        ((getRouterTable (newWebRouterCollector opts ctrls fns)).1,
          Except.ok
            (((getRouterTable (newWebRouterCollector opts ctrls fns)).1).routesPriority)) ∧
      (getRouterTable (newWebRouterCollector opts ctrls fns)).2 =
        Except.ok (((getRouterTable (newWebRouterCollector opts ctrls fns)).1).routes) := by
  cases hA : analyzeRun opts ctrls fns ⟨[], []⟩ with
  | mk st1 err1 =>
    cases err1 with
    | some e =>
      have hE := ensureReady_not_ready_err (newWebRouterCollector opts ctrls fns) rfl st1 e hA
      rw [getRouterTable, hE] at h
      exact Bool.noConfusion h
    | none =>
      have hE := ensureReady_not_ready_ok (newWebRouterCollector opts ctrls fns) rfl st1 hA
      have hG : getRouterTable (newWebRouterCollector opts ctrls fns) =
          ({ newWebRouterCollector opts ctrls fns with
              routes := st1.routes
              routesPriority := st1.routesPriority
              isReady := true }, Except.ok st1.routes) := by
        rw [getRouterTable, hE]
      rw [hG]
      obtain ⟨hne, hiff, -⟩ := analyzeRun_success opts ctrls fns st1 hA
      exact ⟨hne, hiff, getRoutePriorityList_ready _ rfl, rfl⟩

/-- Witness for `routerTable_views`: the single-root-controller pass. -/
theorem routerTable_views_witness :
    ((getRouterTable (newWebRouterCollector sampleOptions [rootController] [])).2).isOk =
        true ∧
      ((∀ kv ∈ ((getRouterTable
            (newWebRouterCollector sampleOptions [rootController] [])).1).routes,
          kv.2 ≠ []) ∧
        (∀ s, s ∈ ((getRouterTable
              (newWebRouterCollector sampleOptions [rootController] [])).1).routes.map
              Prod.fst ↔
            s ∈ ((getRouterTable
              (newWebRouterCollector sampleOptions [rootController] [])).1).routesPriority.map
              RouterPriority.prefixPath) ∧
        getRoutePriorityList ((getRouterTable
            (newWebRouterCollector sampleOptions [rootController] [])).1) =
          ((getRouterTable (newWebRouterCollector sampleOptions [rootController] [])).1,
            Except.ok (((getRouterTable
              (newWebRouterCollector sampleOptions [rootController] [])).1).routesPriority)) ∧
        (getRouterTable (newWebRouterCollector sampleOptions [rootController] [])).2 =
          Except.ok (((getRouterTable
            (newWebRouterCollector sampleOptions [rootController] [])).1).routes)) :=
  ⟨rfl, routerTable_views sampleOptions [rootController] [] rfl⟩

/-! ## Claim C4 -/

/-- C4, counterexample: with a root controller and a controller mounted
(ignoring the global prefix) at the length-1 prefix `"a"`, the group sort —
which compares *only* prefix lengths and never the −999 priority — leaves
the insertion order `["/", "a"]`, so the root prefix is *not* last even
though another group exists. -/
theorem routePriorityList_root_not_last_counterexample :
    (Option.map (List.map RouterPriority.prefixPath)
        (Except.toOption
          ((getRoutePriorityList
            (newWebRouterCollector sampleOptions [rootController, prefixAController] [])).2)) =
        some ["/", "a"]) ∧
      (["/", "a"].getLast? ≠ some "/") := by
  exact ⟨rfl, by decide⟩

/-- C4 (amended): after a successful pass `getRoutePriorityList` is sorted
by descending prefix string length only (the −999 priority plays no part);
consequently the root prefix `"/"` is last whenever every other surviving
prefix is strictly longer than 1 character, but an equal-length prefix may
precede it, left in insertion order. -/
theorem routePriorityList_sorted_amended (opts : RouterCollectorOptions)
    (ctrls : List ControllerModule) (fns : List FuncModule) (c' : WebRouterCollector)
    (pr : List RouterPriority)
    (h : getRoutePriorityList (newWebRouterCollector opts ctrls fns) = (c', Except.ok pr)) :
    pr.Pairwise (fun a b => b.prefixPath.length ≤ a.prefixPath.length) ∧
      ((∀ q ∈ pr, q.prefixPath = "/" ∨ 2 ≤ q.prefixPath.length) →
        pr.Pairwise fun a b => a.prefixPath = "/" → b.prefixPath = "/") := by
  cases hA : analyzeRun opts ctrls fns ⟨[], []⟩ with
  | mk st1 err1 =>
    cases err1 with
    | some e =>
      have hE := ensureReady_not_ready_err (newWebRouterCollector opts ctrls fns) rfl st1 e hA
      rw [getRoutePriorityList, hE] at h
      simp at h
    | none =>
      have hE := ensureReady_not_ready_ok (newWebRouterCollector opts ctrls fns) rfl st1 hA
      rw [getRoutePriorityList, hE] at h
      have hpr : pr = st1.routesPriority := by
        have := congrArg Prod.snd h
        simpa using this.symm
      subst hpr
      obtain ⟨-, -, hpw⟩ := analyzeRun_success opts ctrls fns st1 hA
      refine ⟨hpw, ?_⟩
      intro hH
      refine hpw.imp_of_mem ?_
      intro a b ha hb hle hroot
      rcases hH b hb with hb2 | hb2
      · exact hb2
      · exfalso
        have h1 : a.prefixPath.length = 1 := by
          rw [hroot]
          decide
        omega

/-- Witness for `routePriorityList_sorted_amended`: the single-root pass. -/
theorem routePriorityList_sorted_amended_witness :
    getRoutePriorityList (newWebRouterCollector sampleOptions [rootController] []) =
        (⟨sampleOptions, [rootController], [], true,
            [("/", [⟨1, "/", "", "/a", "get", "m1", "home.m1", "home.m1", "home", [], []⟩])],
            [⟨"/", -999, [], "home"⟩]⟩,
          Except.ok [⟨"/", -999, [], "home"⟩]) ∧
      (([⟨"/", -999, [], "home"⟩] : List RouterPriority).Pairwise
          (fun a b => b.prefixPath.length ≤ a.prefixPath.length) ∧
        ((∀ q ∈ ([⟨"/", -999, [], "home"⟩] : List RouterPriority),
            q.prefixPath = "/" ∨ 2 ≤ q.prefixPath.length) →
          ([⟨"/", -999, [], "home"⟩] : List RouterPriority).Pairwise
            fun a b => a.prefixPath = "/" → b.prefixPath = "/")) :=
  ⟨rfl, routePriorityList_sorted_amended sampleOptions [rootController] [] _ _ rfl⟩

/-! ## Claim C6 -/

/-- C6, counterexample: a controller registering `GET /users` twice makes the
pass abort, and the failed `getRouterTable` call leaves the instance's route
table *non-empty* (the first entry and its group survive), contradicting the
claim that the table is left unchanged (empty, as before the pass). -/
theorem failed_pass_partial_state_counterexample :
    ((getRouterTable (newWebRouterCollector sampleOptions [duplicateController] [])).1).routes ≠
        ([] : RoutesMap) ∧
      (getRouterTable (newWebRouterCollector sampleOptions [duplicateController] [])).2 =
        Except.error (CollectorError.duplicateRouteError dupError) := by
  exact ⟨by decide, rfl⟩

/-- C6 (amended): when the collection pass aborts with a fatal error, the
facade surfaces exactly that error to the caller and does not set the ready
flag — so a later read call re-runs `analyze` — but the instance's route
table and group priority list keep the partial mutations made before the
failure instead of being reset to empty, and the re-run starts from that
dirty state. -/
theorem failed_pass_state_amended (opts : RouterCollectorOptions)
    (ctrls : List ControllerModule) (fns : List FuncModule) (st' : CollectorState)
    (e : CollectorError)
    (h : analyzeRun opts ctrls fns initialCollectorState = (st', some e)) :
    getRouterTable (newWebRouterCollector opts ctrls fns) =
      (⟨opts, ctrls, fns, false, st'.routes, st'.routesPriority⟩, Except.error e) := by
  have hE := ensureReady_not_ready_err (newWebRouterCollector opts ctrls fns) rfl st' e h
  rw [getRouterTable, hE]
  rfl

/-- Witness for `failed_pass_state_amended` at the duplicate-route
controller. -/
theorem failed_pass_state_amended_witness :
    analyzeRun sampleOptions [duplicateController] [] initialCollectorState =
        (dupPartialState, some (CollectorError.duplicateRouteError dupError)) ∧
      getRouterTable (newWebRouterCollector sampleOptions [duplicateController] []) =
        (⟨sampleOptions, [duplicateController], [], false, dupPartialState.routes,
            dupPartialState.routesPriority⟩,
          Except.error (CollectorError.duplicateRouteError dupError)) :=
  ⟨rfl,
    failed_pass_state_amended sampleOptions [duplicateController] [] dupPartialState
      (CollectorError.duplicateRouteError dupError) rfl⟩
